import Mathlib

/-!
Verification of the medical-transcription evaluation core of the repository
(`src/WhisperFineTuning/evaluation_metrics.py`, with the term catalog from
`src/WhisperFineTuning/medical_vocabulary.py`), as a shallow embedding in
Lean.  Python floats are modelled as rationals, Python sets as `Finset`,
and token sequences as `List String`.
-/

namespace Noted

/-- Reference (textbook) Levenshtein edit distance between two token
sequences: unit cost for substitution, insertion and deletion, cost 0 for an
exact match.  Peels tokens from the front. -/
def lev : List String → List String → Nat
  | [], ys => ys.length
  | _ :: xs, [] => xs.length + 1
  | x :: xs, y :: ys =>
    if x = y then lev xs ys
    else 1 + min (lev xs (y :: ys)) (min (lev (x :: xs) ys) (lev xs ys))

theorem lev_nil_left (ys : List String) : lev [] ys = ys.length := by
  simp [lev]

theorem lev_nil_right (xs : List String) : lev xs [] = xs.length := by
  cases xs <;> simp [lev]

theorem lev_cons_cons (x y : String) (xs ys : List String) :
    lev (x :: xs) (y :: ys) =
      if x = y then lev xs ys
      else 1 + min (lev xs (y :: ys)) (min (lev (x :: xs) ys) (lev xs ys)) := by
  simp [lev]

/-- Regrouping identity for the minimum of nine costs: grouping by rows or
by columns of the 3 × 3 arrangement gives the same value (both sides equal
`2 + ` the minimum of all nine). -/
theorem nine_min_regroup (q1 q2 q3 r1 r2 r3 p1 p2 p3 : Nat) :
    1 + min (1 + min q1 (min q2 q3))
      (min (1 + min r1 (min r2 r3)) (1 + min p1 (min p2 p3))) =
    1 + min (1 + min q1 (min r1 p1))
      (min (1 + min q2 (min r2 p2)) (1 + min q3 (min r3 p3))) := by
  have h : ∀ a b : Nat, min (1 + a) (1 + b) = 1 + min a b := by
    intro a b; omega
  rw [h, h, h, h]
  congr 2
  ac_rfl

/-- The Levenshtein distance also satisfies the recurrence that peels the
last token from each sequence (the form used by the prefix-indexed dynamic
programming table in `_align_sequences`). -/
theorem lev_append_last (x y : String) :
    ∀ xs ys : List String,
      lev (xs ++ [x]) (ys ++ [y]) =
        if x = y then lev xs ys
        else 1 + min (lev xs (ys ++ [y])) (min (lev (xs ++ [x]) ys) (lev xs ys)) := by
  intro xs
  induction xs with
  | nil =>
    intro ys
    induction ys with
    | nil =>
      simp only [List.nil_append]
      rw [lev_cons_cons]
    | cons b ys ihy =>
      simp only [List.nil_append] at ihy ⊢
      simp only [List.cons_append, lev_cons_cons]
      rw [ihy]
      simp only [lev_nil_left, List.length_append, List.length_cons,
        List.length_nil]
      by_cases hxb : x = b <;> by_cases hxy : x = y <;>
        simp only [hxb, hxy, eq_self_iff_true, ite_true, ite_false] <;>
        (try split_ifs) <;> omega
  | cons a xs ihx =>
    intro ys
    induction ys with
    | nil =>
      have h1 := ihx []
      simp only [List.nil_append] at h1 ⊢
      simp only [List.cons_append, lev_cons_cons]
      rw [h1]
      simp only [lev_nil_left, lev_nil_right, List.length_append,
        List.length_cons, List.length_nil]
      by_cases hay : a = y <;> by_cases hxy : x = y <;>
        simp only [hay, hxy, eq_self_iff_true, ite_true, ite_false] <;>
        omega
    | cons b ys ihy =>
      have h2 := ihx (b :: ys)
      have h1 := ihx ys
      simp only [List.cons_append] at h2 ihy ⊢
      simp only [lev_cons_cons]
      rw [h2, ihy, h1]
      by_cases hab : a = b <;> by_cases hxy : x = y <;>
        simp only [hab, hxy, eq_self_iff_true, ite_true, ite_false]
      exact nine_min_regroup _ _ _ _ _ _ _ _ _

/-- Levenshtein distance is invariant under reversing both sequences. -/
theorem lev_reverse_aux :
    ∀ (n : Nat) (xs ys : List String), xs.length + ys.length ≤ n →
      lev xs.reverse ys.reverse = lev xs ys := by
  intro n
  induction n with
  | zero =>
    intro xs ys h
    have hx : xs = [] := List.length_eq_zero.mp (by omega)
    have hy : ys = [] := List.length_eq_zero.mp (by omega)
    subst hx; subst hy; rfl
  | succ n ih =>
    intro xs ys h
    match xs, ys with
    | [], ys => simp [lev_nil_left]
    | x :: xs, [] => simp [lev_nil_left, lev_nil_right]
    | x :: xs, y :: ys =>
      rw [List.reverse_cons, List.reverse_cons, lev_append_last,
        lev_cons_cons]
      simp only [List.length_cons] at h
      rw [← List.reverse_cons y ys, ih xs (y :: ys) (by simp; omega)]
      rw [← List.reverse_cons x xs, ih (x :: xs) ys (by simp; omega)]
      rw [ih xs ys (by omega)]

theorem lev_reverse (xs ys : List String) :
    lev xs.reverse ys.reverse = lev xs ys :=
  lev_reverse_aux (xs.length + ys.length) xs ys le_rfl

/-- Helper computing row `i + 1` of the dynamic-programming table of
`_align_sequences` from row `i` (supplied as `prev`), following the fill
order of the Python loops. -/
def dpRow (ref hyp : List String) (i : Nat) (prev : Nat → Nat) : Nat → Nat
  | 0 => i + 1
  | j + 1 =>
    if ref.getD i "" = hyp.getD j "" then prev j
    else 1 + min (prev (j + 1)) (min (dpRow ref hyp i prev j) (prev j))

/-- Embedding of the dynamic-programming table filled by `_align_sequences`
(evaluation_metrics.py lines 338-356): `dp ref hyp i j` is the value of cell
`dp[i][j]`, the edit distance between the first `i` reference tokens and the
first `j` hypothesis tokens.  The 2-dimensional array is memoization; the
recurrence is translated directly, row by row.  `List.getD k ""` stands for
the in-range Python index `reference[i-1]` / `hypothesis[j-1]`. -/
def dp (ref hyp : List String) : Nat → Nat → Nat
  | 0 => fun j => j
  | i + 1 => dpRow ref hyp i (dp ref hyp i)

theorem dp_zero_left (ref hyp : List String) (j : Nat) : dp ref hyp 0 j = j :=
  rfl

theorem dp_zero_right (ref hyp : List String) (i : Nat) : dp ref hyp i 0 = i := by
  cases i <;> rfl

theorem dp_succ_succ (ref hyp : List String) (i j : Nat) :
    dp ref hyp (i + 1) (j + 1) =
      if ref.getD i "" = hyp.getD j "" then dp ref hyp i j
      else 1 + min (dp ref hyp i (j + 1))
        (min (dp ref hyp (i + 1) j) (dp ref hyp i j)) :=
  rfl

theorem take_succ_getD {l : List String} :
    ∀ i : Nat, i < l.length → l.take (i + 1) = l.take i ++ [l.getD i ""] := by
  induction l with
  | nil => intro i h; simp at h
  | cons a l ih =>
    intro i h
    cases i with
    | zero => simp
    | succ i =>
      simp only [List.take_succ_cons, List.getD_cons_succ, List.cons_append]
      rw [ih i (by simpa using h)]

/-- Each table cell holds the Levenshtein distance between the corresponding
reversed prefixes (stated over reversed prefixes because the table peels the
last token of each prefix). -/
theorem dp_eq_lev_take_aux :
    ∀ (n : Nat) (ref hyp : List String) (i j : Nat), i + j ≤ n →
      i ≤ ref.length → j ≤ hyp.length →
      dp ref hyp i j = lev ((ref.take i).reverse) ((hyp.take j).reverse) := by
  intro n
  induction n with
  | zero =>
    intro ref hyp i j h hi hj
    have h1 : i = 0 := by omega
    have h2 : j = 0 := by omega
    subst h1; subst h2
    simp [dp_zero_left, lev]
  | succ n ih =>
    intro ref hyp i j h hi hj
    match i, j with
    | 0, j =>
      rw [dp_zero_left]
      simp [lev_nil_left, List.length_take, Nat.min_eq_left hj]
    | i + 1, 0 =>
      rw [dp_zero_right]
      simp [lev_nil_right, List.length_take, Nat.min_eq_left hi]
    | i + 1, j + 1 =>
      have hi' : i < ref.length := hi
      have hj' : j < hyp.length := hj
      rw [dp_succ_succ,
        ih ref hyp i j (by omega) (by omega) (by omega),
        ih ref hyp i (j + 1) (by omega) (by omega) hj,
        ih ref hyp (i + 1) j (by omega) hi (by omega),
        take_succ_getD i hi', take_succ_getD j hj',
        List.reverse_append, List.reverse_append]
      simp only [List.reverse_cons, List.reverse_nil, List.nil_append,
        List.singleton_append]
      rw [lev_cons_cons]

/-- The standard edit distance used by `_calculate_wer` (evaluation_metrics.py
line 271 calls `nltk.metrics.distance.edit_distance`, the same classic
unit-cost Levenshtein dynamic program as the table above): the value of the
full table cell `dp[len(ref)][len(hyp)]`. -/
def editDistance (ref hyp : List String) : Nat :=
  dp ref hyp ref.length hyp.length

theorem editDistance_eq_lev (ref hyp : List String) :
    editDistance ref hyp = lev ref hyp := by
  rw [editDistance,
    dp_eq_lev_take_aux (ref.length + hyp.length) ref hyp _ _ le_rfl le_rfl le_rfl]
  simp [List.take_length, lev_reverse]

/-- Backtracking over column 0 of the table (evaluation_metrics.py lines
358-376 with `i = 0`): only the final `else` branch of the loop can fire, so
every step emits an insertion pair `("", hypothesis[j-1])`. -/
def backtrackRow0 (hyp : List String) : Nat → List (String × String)
  | 0 => []
  | j + 1 => ("", hyp.getD j "") :: backtrackRow0 hyp j

/-- One backtracking step layer for reference prefix length `i + 1`, where
`prev` is the backtracking function for prefix length `i`.  This is the body
of the `while` loop of `_align_sequences` (lines 362-376), translated branch
by branch in order: exact match, substitution, deletion, insertion.  At
`j = 0` the deletion test `dp[i][0] == dp[i-1][0] + 1` holds identically
(both cells are row indices), so Python's final `else` — which would read
`hypothesis[-1]` — is unreachable; it is rendered as `[]`. -/
def backtrackRow (ref hyp : List String) (i : Nat)
    (prev : Nat → List (String × String)) : Nat → List (String × String)
  | 0 =>
    if dp ref hyp (i + 1) 0 = dp ref hyp i 0 + 1 then
      (ref.getD i "", "") :: prev 0
    else []
  | j + 1 =>
    if ref.getD i "" = hyp.getD j "" then
      (ref.getD i "", hyp.getD j "") :: prev j
    else if dp ref hyp (i + 1) (j + 1) = dp ref hyp i j + 1 then
      (ref.getD i "", hyp.getD j "") :: prev j
    else if dp ref hyp (i + 1) (j + 1) = dp ref hyp i (j + 1) + 1 then
      (ref.getD i "", "") :: prev (j + 1)
    else
      ("", hyp.getD j "") :: backtrackRow ref hyp i prev j

/-- Backtracking of `_align_sequences` from cell `(i, j)` down to `(0, 0)`,
producing the alignment pairs in the order the Python loop appends them
(reverse order of the final alignment). -/
def backtrack (ref hyp : List String) : Nat → Nat → List (String × String)
  | 0 => backtrackRow0 hyp
  | i + 1 => backtrackRow ref hyp i (backtrack ref hyp i)

/-- Embedding of `_align_sequences` (evaluation_metrics.py lines 333-378):
fill the table, backtrack from `(len(ref), len(hyp))`, reverse. -/
def alignSequences (ref hyp : List String) : List (String × String) :=
  (backtrack ref hyp ref.length hyp.length).reverse

theorem backtrack_zero_succ (ref hyp : List String) (j : Nat) :
    backtrack ref hyp 0 (j + 1) = ("", hyp.getD j "") :: backtrack ref hyp 0 j :=
  rfl

theorem backtrack_succ_zero (ref hyp : List String) (i : Nat) :
    backtrack ref hyp (i + 1) 0 = (ref.getD i "", "") :: backtrack ref hyp i 0 := by
  show backtrackRow ref hyp i (backtrack ref hyp i) 0 = _
  rw [backtrackRow, if_pos]
  rw [dp_zero_right, dp_zero_right]

theorem backtrack_succ_succ (ref hyp : List String) (i j : Nat) :
    backtrack ref hyp (i + 1) (j + 1) =
      if ref.getD i "" = hyp.getD j "" then
        (ref.getD i "", hyp.getD j "") :: backtrack ref hyp i j
      else if dp ref hyp (i + 1) (j + 1) = dp ref hyp i j + 1 then
        (ref.getD i "", hyp.getD j "") :: backtrack ref hyp i j
      else if dp ref hyp (i + 1) (j + 1) = dp ref hyp i (j + 1) + 1 then
        (ref.getD i "", "") :: backtrack ref hyp i (j + 1)
      else
        ("", hyp.getD j "") :: backtrack ref hyp (i + 1) j :=
  rfl

/-- When the match, substitution and deletion branches all fail at an inner
cell, the cell's value exceeds its left neighbour by exactly one, so the
insertion branch taken by the final `else` is on a minimum-cost path. -/
theorem dp_left_step (ref hyp : List String) (i j : Nat)
    (hne : ref.getD i "" ≠ hyp.getD j "")
    (h1 : dp ref hyp (i + 1) (j + 1) ≠ dp ref hyp i j + 1)
    (h2 : dp ref hyp (i + 1) (j + 1) ≠ dp ref hyp i (j + 1) + 1) :
    dp ref hyp (i + 1) (j + 1) = dp ref hyp (i + 1) j + 1 := by
  rw [dp_succ_succ, if_neg hne] at h1 h2 ⊢
  omega

theorem getD_ne_of_forall {l : List String} {i : Nat}
    (hl : ∀ t ∈ l, t ≠ "") (hi : i < l.length) : l.getD i "" ≠ "" := by
  rw [List.getD_eq_getElem _ _ hi]
  exact hl _ (List.getElem_mem hi)

theorem countP_fst_cons_pos (a b : String) (l : List (String × String))
    (h : a ≠ "") :
    List.countP (fun p => decide (p.1 ≠ "")) ((a, b) :: l) =
      List.countP (fun p => decide (p.1 ≠ "")) l + 1 :=
  List.countP_cons_of_pos _ _ (decide_eq_true h)

theorem countP_fst_cons_neg (b : String) (l : List (String × String)) :
    List.countP (fun p => decide (p.1 ≠ "")) (("", b) :: l) =
      List.countP (fun p => decide (p.1 ≠ "")) l :=
  List.countP_cons_of_neg _ _ (by simp)

theorem countP_snd_cons_pos (a b : String) (l : List (String × String))
    (h : b ≠ "") :
    List.countP (fun p => decide (p.2 ≠ "")) ((a, b) :: l) =
      List.countP (fun p => decide (p.2 ≠ "")) l + 1 :=
  List.countP_cons_of_pos _ _ (decide_eq_true h)

theorem countP_snd_cons_neg (a : String) (l : List (String × String)) :
    List.countP (fun p => decide (p.2 ≠ "")) ((a, "") :: l) =
      List.countP (fun p => decide (p.2 ≠ "")) l :=
  List.countP_cons_of_neg _ _ (by simp)

theorem countP_ne_cons_pos (a b : String) (l : List (String × String))
    (h : a ≠ b) :
    List.countP (fun p => decide (p.1 ≠ p.2)) ((a, b) :: l) =
      List.countP (fun p => decide (p.1 ≠ p.2)) l + 1 :=
  List.countP_cons_of_pos _ _ (decide_eq_true h)

theorem countP_ne_cons_neg (a b : String) (l : List (String × String))
    (h : a = b) :
    List.countP (fun p => decide (p.1 ≠ p.2)) ((a, b) :: l) =
      List.countP (fun p => decide (p.1 ≠ p.2)) l :=
  List.countP_cons_of_neg _ _ (by simp [h])

/-- The backtracked pair list contains exactly `i` pairs with a populated
reference side: deletions, substitutions and matches each consume one
reference token, insertions none. -/
theorem backtrack_countP_fst :
    ∀ (n : Nat) (ref hyp : List String) (i j : Nat), i + j ≤ n →
      i ≤ ref.length → j ≤ hyp.length → (∀ t ∈ ref, t ≠ "") →
      (backtrack ref hyp i j).countP (fun p => decide (p.1 ≠ "")) = i := by
  intro n
  induction n with
  | zero =>
    intro ref hyp i j h _ _ _
    have h1 : i = 0 := by omega
    have h2 : j = 0 := by omega
    subst h1; subst h2; rfl
  | succ n ih =>
    intro ref hyp i j h hi hj href
    match i, j with
    | 0, 0 => rfl
    | 0, j + 1 =>
      rw [backtrack_zero_succ, countP_fst_cons_neg,
        ih ref hyp 0 j (by omega) (by omega) (by omega) href]
    | i + 1, 0 =>
      have hfst := getD_ne_of_forall href (by omega : i < ref.length)
      rw [backtrack_succ_zero, countP_fst_cons_pos _ _ _ hfst,
        ih ref hyp i 0 (by omega) (by omega) (by omega) href]
    | i + 1, j + 1 =>
      have hfst := getD_ne_of_forall href (by omega : i < ref.length)
      rw [backtrack_succ_succ]
      split_ifs with hm hs hd
      · rw [countP_fst_cons_pos _ _ _ hfst,
          ih ref hyp i j (by omega) (by omega) (by omega) href]
      · rw [countP_fst_cons_pos _ _ _ hfst,
          ih ref hyp i j (by omega) (by omega) (by omega) href]
      · rw [countP_fst_cons_pos _ _ _ hfst,
          ih ref hyp i (j + 1) (by omega) (by omega) hj href]
      · rw [countP_fst_cons_neg,
          ih ref hyp (i + 1) j (by omega) hi (by omega) href]

/-- The backtracked pair list contains exactly `j` pairs with a populated
hypothesis side. -/
theorem backtrack_countP_snd :
    ∀ (n : Nat) (ref hyp : List String) (i j : Nat), i + j ≤ n →
      i ≤ ref.length → j ≤ hyp.length → (∀ t ∈ hyp, t ≠ "") →
      (backtrack ref hyp i j).countP (fun p => decide (p.2 ≠ "")) = j := by
  intro n
  induction n with
  | zero =>
    intro ref hyp i j h _ _ _
    have h1 : i = 0 := by omega
    have h2 : j = 0 := by omega
    subst h1; subst h2; rfl
  | succ n ih =>
    intro ref hyp i j h hi hj hhyp
    match i, j with
    | 0, 0 => rfl
    | 0, j + 1 =>
      have hsnd := getD_ne_of_forall hhyp (by omega : j < hyp.length)
      rw [backtrack_zero_succ, countP_snd_cons_pos _ _ _ hsnd,
        ih ref hyp 0 j (by omega) (by omega) (by omega) hhyp]
    | i + 1, 0 =>
      rw [backtrack_succ_zero, countP_snd_cons_neg,
        ih ref hyp i 0 (by omega) (by omega) (by omega) hhyp]
    | i + 1, j + 1 =>
      have hsnd := getD_ne_of_forall hhyp (by omega : j < hyp.length)
      rw [backtrack_succ_succ]
      split_ifs with hm hs hd
      · rw [countP_snd_cons_pos _ _ _ hsnd,
          ih ref hyp i j (by omega) (by omega) (by omega) hhyp]
      · rw [countP_snd_cons_pos _ _ _ hsnd,
          ih ref hyp i j (by omega) (by omega) (by omega) hhyp]
      · rw [countP_snd_cons_neg,
          ih ref hyp i (j + 1) (by omega) (by omega) hj hhyp]
      · rw [countP_snd_cons_pos _ _ _ hsnd,
          ih ref hyp (i + 1) j (by omega) hi (by omega) hhyp]

/-- Every backtracked pair has at least one populated side. -/
theorem backtrack_populated :
    ∀ (n : Nat) (ref hyp : List String) (i j : Nat), i + j ≤ n →
      i ≤ ref.length → j ≤ hyp.length →
      (∀ t ∈ ref, t ≠ "") → (∀ t ∈ hyp, t ≠ "") →
      ∀ p ∈ backtrack ref hyp i j, p.1 ≠ "" ∨ p.2 ≠ "" := by
  intro n
  induction n with
  | zero =>
    intro ref hyp i j h _ _ _ _
    have h1 : i = 0 := by omega
    have h2 : j = 0 := by omega
    subst h1; subst h2
    intro p hp
    simp [backtrack, backtrackRow0] at hp
  | succ n ih =>
    intro ref hyp i j h hi hj href hhyp
    match i, j with
    | 0, 0 => intro p hp; simp [backtrack, backtrackRow0] at hp
    | 0, j + 1 =>
      rw [backtrack_zero_succ]
      intro p hp
      rcases List.mem_cons.mp hp with hp | hp
      · subst hp
        exact Or.inr (getD_ne_of_forall hhyp (by omega : j < hyp.length))
      · exact ih ref hyp 0 j (by omega) (by omega) (by omega) href hhyp p hp
    | i + 1, 0 =>
      rw [backtrack_succ_zero]
      intro p hp
      rcases List.mem_cons.mp hp with hp | hp
      · subst hp
        exact Or.inl (getD_ne_of_forall href (by omega : i < ref.length))
      · exact ih ref hyp i 0 (by omega) (by omega) (by omega) href hhyp p hp
    | i + 1, j + 1 =>
      have hfst : ref.getD i "" ≠ "" :=
        getD_ne_of_forall href (by omega : i < ref.length)
      have hsnd : hyp.getD j "" ≠ "" :=
        getD_ne_of_forall hhyp (by omega : j < hyp.length)
      rw [backtrack_succ_succ]
      split_ifs with hm hs hd <;> intro p hp <;>
        rcases List.mem_cons.mp hp with hp | hp
      · subst hp; exact Or.inl hfst
      · exact ih ref hyp i j (by omega) (by omega) (by omega) href hhyp p hp
      · subst hp; exact Or.inl hfst
      · exact ih ref hyp i j (by omega) (by omega) (by omega) href hhyp p hp
      · subst hp; exact Or.inl hfst
      · exact ih ref hyp i (j + 1) (by omega) (by omega) hj href hhyp p hp
      · subst hp; exact Or.inr hsnd
      · exact ih ref hyp (i + 1) j (by omega) hi (by omega) href hhyp p hp

/-- Along the backtracked path, each non-matching pair corresponds to a unit
drop of the table value; hence the number of non-matching pairs from cell
`(i, j)` is exactly `dp[i][j]`. -/
theorem backtrack_countP_ne :
    ∀ (n : Nat) (ref hyp : List String) (i j : Nat), i + j ≤ n →
      i ≤ ref.length → j ≤ hyp.length →
      (∀ t ∈ ref, t ≠ "") → (∀ t ∈ hyp, t ≠ "") →
      (backtrack ref hyp i j).countP (fun p => decide (p.1 ≠ p.2)) = dp ref hyp i j := by
  intro n
  induction n with
  | zero =>
    intro ref hyp i j h _ _ _ _
    have h1 : i = 0 := by omega
    have h2 : j = 0 := by omega
    subst h1; subst h2; rfl
  | succ n ih =>
    intro ref hyp i j h hi hj href hhyp
    match i, j with
    | 0, 0 => rfl
    | 0, j + 1 =>
      have hne := Ne.symm (getD_ne_of_forall hhyp (by omega : j < hyp.length))
      rw [backtrack_zero_succ, countP_ne_cons_pos _ _ _ hne,
        ih ref hyp 0 j (by omega) (by omega) (by omega) href hhyp,
        dp_zero_left, dp_zero_left]
    | i + 1, 0 =>
      have hne := getD_ne_of_forall href (by omega : i < ref.length)
      rw [backtrack_succ_zero, countP_ne_cons_pos _ _ _ hne,
        ih ref hyp i 0 (by omega) (by omega) (by omega) href hhyp,
        dp_zero_right, dp_zero_right]
    | i + 1, j + 1 =>
      have hfst : ref.getD i "" ≠ "" :=
        getD_ne_of_forall href (by omega : i < ref.length)
      have hsnd : hyp.getD j "" ≠ "" :=
        getD_ne_of_forall hhyp (by omega : j < hyp.length)
      rw [backtrack_succ_succ]
      split_ifs with hm hs hd
      · rw [countP_ne_cons_neg _ _ _ hm,
          ih ref hyp i j (by omega) (by omega) (by omega) href hhyp,
          dp_succ_succ, if_pos hm]
      · rw [countP_ne_cons_pos _ _ _ hm,
          ih ref hyp i j (by omega) (by omega) (by omega) href hhyp, hs]
      · rw [countP_ne_cons_pos _ _ _ hfst,
          ih ref hyp i (j + 1) (by omega) (by omega) hj href hhyp, hd]
      · rw [countP_ne_cons_pos _ _ _ (Ne.symm hsnd),
          ih ref hyp (i + 1) j (by omega) hi (by omega) href hhyp,
          dp_left_step ref hyp i j hm hs hd]

/-- Modelled from the spec: column-0 steps of a backtracker that, at each
cell, walks to a predecessor lying on a minimum-cost path, preferring
diagonal over up over down; in column 0 only the "up" (deletion) move can be
valid.  An empty list marks the (never reached) stuck state. -/
def alignPrefRow0 (ref hyp : List String) : Nat → List (String × String)
  | 0 => []
  | j + 1 =>
    if dp ref hyp 0 (j + 1) = dp ref hyp 0 j + 1 then
      ("", hyp.getD j "") :: alignPrefRow0 ref hyp j
    else []

/-- Modelled from the spec: one row layer of the preference-ordered
backtracker.  The diagonal is valid when it lies on a minimum-cost path
(cost 0 for a match, cost 1 for a substitution); "up" (deletion) and "left"
(insertion) are valid when the cell exceeds the corresponding neighbour by
exactly one; the first valid direction in the order diagonal, up, left is
taken.  An empty list marks the (never reached) stuck state. -/
def alignPrefRow (ref hyp : List String) (i : Nat)
    (prev : Nat → List (String × String)) : Nat → List (String × String)
  | 0 =>
    if dp ref hyp (i + 1) 0 = dp ref hyp i 0 + 1 then
      (ref.getD i "", "") :: prev 0
    else []
  | j + 1 =>
    if (ref.getD i "" = hyp.getD j "" ∧
          dp ref hyp (i + 1) (j + 1) = dp ref hyp i j) ∨
        (ref.getD i "" ≠ hyp.getD j "" ∧
          dp ref hyp (i + 1) (j + 1) = dp ref hyp i j + 1) then
      (ref.getD i "", hyp.getD j "") :: prev j
    else if dp ref hyp (i + 1) (j + 1) = dp ref hyp i (j + 1) + 1 then
      (ref.getD i "", "") :: prev (j + 1)
    else if dp ref hyp (i + 1) (j + 1) = dp ref hyp (i + 1) j + 1 then
      ("", hyp.getD j "") :: alignPrefRow ref hyp i prev j
    else []

/-- Modelled from the spec (§4.3): backtracking that reconstructs one
optimal path, with the tie-break policy "prefer match/substitution
(diagonal) over deletion (up) over insertion (left)" applied among the
minimum-cost predecessors of each cell. -/
def alignPrefBack (ref hyp : List String) : Nat → Nat → List (String × String)
  | 0 => alignPrefRow0 ref hyp
  | i + 1 => alignPrefRow ref hyp i (alignPrefBack ref hyp i)

/-- The spec's preference-ordered backtracker, from the full-table cell,
reversed into alignment order. -/
def alignPref (ref hyp : List String) : List (String × String) :=
  (alignPrefBack ref hyp ref.length hyp.length).reverse

theorem alignPrefBack_zero_succ (ref hyp : List String) (j : Nat) :
    alignPrefBack ref hyp 0 (j + 1) =
      ("", hyp.getD j "") :: alignPrefBack ref hyp 0 j := by
  show alignPrefRow0 ref hyp (j + 1) = ("", hyp.getD j "") :: alignPrefRow0 ref hyp j
  rw [alignPrefRow0, if_pos]
  rw [dp_zero_left, dp_zero_left]

theorem alignPrefBack_succ_zero (ref hyp : List String) (i : Nat) :
    alignPrefBack ref hyp (i + 1) 0 =
      (ref.getD i "", "") :: alignPrefBack ref hyp i 0 := by
  show alignPrefRow ref hyp i (alignPrefBack ref hyp i) 0 = _
  rw [alignPrefRow, if_pos]
  rw [dp_zero_right, dp_zero_right]

theorem alignPrefBack_succ_succ (ref hyp : List String) (i j : Nat) :
    alignPrefBack ref hyp (i + 1) (j + 1) =
      if (ref.getD i "" = hyp.getD j "" ∧
            dp ref hyp (i + 1) (j + 1) = dp ref hyp i j) ∨
          (ref.getD i "" ≠ hyp.getD j "" ∧
            dp ref hyp (i + 1) (j + 1) = dp ref hyp i j + 1) then
        (ref.getD i "", hyp.getD j "") :: alignPrefBack ref hyp i j
      else if dp ref hyp (i + 1) (j + 1) = dp ref hyp i (j + 1) + 1 then
        (ref.getD i "", "") :: alignPrefBack ref hyp i (j + 1)
      else if dp ref hyp (i + 1) (j + 1) = dp ref hyp (i + 1) j + 1 then
        ("", hyp.getD j "") :: alignPrefBack ref hyp (i + 1) j
      else [] :=
  rfl

/-- The code's backtracking branch order coincides with the spec's
preference-ordered chooser: at every cell the branch taken by
`_align_sequences` is the first minimum-cost direction in the order
diagonal, up, left. -/
theorem backtrack_eq_alignPrefBack :
    ∀ (n : Nat) (ref hyp : List String) (i j : Nat), i + j ≤ n →
      backtrack ref hyp i j = alignPrefBack ref hyp i j := by
  intro n
  induction n with
  | zero =>
    intro ref hyp i j h
    have h1 : i = 0 := by omega
    have h2 : j = 0 := by omega
    subst h1; subst h2; rfl
  | succ n ih =>
    intro ref hyp i j h
    match i, j with
    | 0, 0 => rfl
    | 0, j + 1 =>
      rw [backtrack_zero_succ, alignPrefBack_zero_succ,
        ih ref hyp 0 j (by omega)]
    | i + 1, 0 =>
      rw [backtrack_succ_zero, alignPrefBack_succ_zero,
        ih ref hyp i 0 (by omega)]
    | i + 1, j + 1 =>
      rw [backtrack_succ_succ, alignPrefBack_succ_succ]
      by_cases hm : ref.getD i "" = hyp.getD j ""
      · have hdiag : dp ref hyp (i + 1) (j + 1) = dp ref hyp i j := by
          rw [dp_succ_succ, if_pos hm]
        rw [if_pos hm, if_pos (Or.inl ⟨hm, hdiag⟩), ih ref hyp i j (by omega)]
      · rw [if_neg hm]
        by_cases hs : dp ref hyp (i + 1) (j + 1) = dp ref hyp i j + 1
        · rw [if_pos hs, if_pos (Or.inr ⟨hm, hs⟩), ih ref hyp i j (by omega)]
        · have hnd : ¬ ((ref.getD i "" = hyp.getD j "" ∧
              dp ref hyp (i + 1) (j + 1) = dp ref hyp i j) ∨
              (ref.getD i "" ≠ hyp.getD j "" ∧
              dp ref hyp (i + 1) (j + 1) = dp ref hyp i j + 1)) := by
            rintro (⟨hc, _⟩ | ⟨_, hc⟩)
            · exact hm hc
            · exact hs hc
          rw [if_neg hs, if_neg hnd]
          by_cases hd : dp ref hyp (i + 1) (j + 1) = dp ref hyp i (j + 1) + 1
          · rw [if_pos hd, if_pos hd, ih ref hyp i (j + 1) (by omega)]
          · rw [if_neg hd, if_neg hd,
              if_pos (dp_left_step ref hyp i j hm hs hd),
              ih ref hyp (i + 1) j (by omega)]

theorem alignSequences_eq_alignPref (ref hyp : List String) :
    alignSequences ref hyp = alignPref ref hyp := by
  rw [alignSequences, alignPref,
    backtrack_eq_alignPrefBack (ref.length + hyp.length) ref hyp _ _ le_rfl]

/-- Critical terms built by `_build_critical_terms_set`
(evaluation_metrics.py lines 125-144): dosage units, critical conditions,
critical procedures and critical medications. -/
def criticalTerms : List String :=
  ["mg", "ml", "mcg", "units", "tablets", "capsules", "grams",
   "myocardial infarction", "stroke", "sepsis", "anaphylaxis",
   "pneumonia", "diabetes", "hypertension", "heart attack",
   "surgery", "intubation", "defibrillation", "cpr",
   "blood transfusion", "dialysis",
   "epinephrine", "insulin", "morphine", "warfarin",
   "digoxin", "chemotherapy"]

/-- The `drugs` category set of `_build_medical_category_sets`: every term of
`_load_drug_names` (medical_vocabulary.py lines 92-164) lower-cased, together
with the lower-cased synonyms (the generic names attached to brand names). -/
def drugsSet : List String :=
  [ -- pain medications
   "acetaminophen", "ibuprofen", "aspirin", "naproxen", "tramadol",
   "oxycodone", "hydrocodone", "codeine", "morphine", "fentanyl", "celecoxib",
   -- antibiotics
   "amoxicillin", "azithromycin", "cephalexin", "ciprofloxacin",
   "clindamycin", "doxycycline", "erythromycin", "levofloxacin",
   "metronidazole", "penicillin", "trimethoprim", "sulfamethoxazole",
   "vancomycin", "ceftriaxone",
   -- cardiovascular
   "amlodipine", "atenolol", "carvedilol", "enalapril", "furosemide",
   "hydrochlorothiazide", "lisinopril", "losartan", "metoprolol",
   "propranolol", "simvastatin", "atorvastatin", "warfarin", "clopidogrel",
   "aspirin", "digoxin", "amiodarone",
   -- diabetes
   "metformin", "insulin", "glipizide", "glyburide", "pioglitazone",
   "sitagliptin", "empagliflozin", "liraglutide", "semaglutide",
   -- mental health
   "sertraline", "fluoxetine", "escitalopram", "citalopram", "paroxetine",
   "venlafaxine", "duloxetine", "bupropion", "trazodone", "lorazepam",
   "alprazolam", "clonazepam", "diazepam", "quetiapine", "risperidone",
   "aripiprazole", "lithium",
   -- respiratory
   "albuterol", "montelukast", "fluticasone", "budesonide", "prednisone",
   "prednisolone", "methylprednisolone", "dexamethasone",
   -- gastrointestinal
   "omeprazole", "lansoprazole", "esomeprazole", "ranitidine", "famotidine",
   "metoclopramide", "ondansetron", "loperamide", "docusate",
   -- brand names (lower-cased) with their generic-name synonyms
   "tylenol", "acetaminophen", "advil", "ibuprofen", "motrin", "ibuprofen",
   "aleve", "naproxen", "lipitor", "atorvastatin", "crestor", "rosuvastatin",
   "nexium", "esomeprazole", "prilosec", "omeprazole", "zoloft", "sertraline",
   "prozac", "fluoxetine", "xanax", "alprazolam", "ativan", "lorazepam",
   "glucophage", "metformin", "lantus", "insulin glargine",
   "humalog", "insulin lispro"]

/-- The `procedures` category set: terms of `_load_medical_procedures`
(medical_vocabulary.py lines 166-205), lower-cased. -/
def proceduresSet : List String :=
  ["endoscopy", "colonoscopy", "bronchoscopy", "cystoscopy", "arthroscopy",
   "laparoscopy", "thoracoscopy", "hysteroscopy",
   "radiography", "ultrasonography", "echocardiography", "mammography",
   "angiography", "myelography", "arthrography", "tomography",
   "ct scan", "mri scan", "pet scan", "spect scan",
   "appendectomy", "cholecystectomy", "nephrectomy", "hysterectomy",
   "mastectomy", "prostatectomy", "tonsillectomy", "thyroidectomy",
   "craniotomy", "thoracotomy", "laparotomy", "arthrotomy",
   "angioplasty", "stenting", "bypass", "catheterization", "ablation",
   "pacemaker", "defibrillator", "valvuloplasty", "endarterectomy",
   "intubation", "tracheostomy", "dialysis", "chemotherapy", "radiotherapy",
   "physiotherapy", "occupational therapy", "speech therapy",
   "biopsy", "injection", "aspiration", "drainage", "suture",
   "cauterization", "cryotherapy", "electrocautery", "laser therapy"]

/-- The `anatomy` category set: terms of `_load_anatomy_terms`
(medical_vocabulary.py lines 207-245). -/
def anatomySet : List String :=
  ["myocardium", "pericardium", "endocardium", "septum", "ventricle",
   "atrium", "aorta", "vena cava", "pulmonary", "coronary", "carotid",
   "femoral",
   "alveoli", "bronchi", "bronchioles", "trachea", "larynx", "pharynx",
   "diaphragm", "pleura", "mediastinum",
   "esophagus", "duodenum", "jejunum", "ileum", "cecum", "appendix",
   "hepatic", "pancreatic", "gallbladder", "sphincter",
   "cerebrum", "cerebellum", "brainstem", "meninges", "ventricles",
   "hippocampus", "amygdala", "thalamus", "hypothalamus", "pituitary",
   "vertebrae", "thoracic", "lumbar", "cervical", "sacral", "coccyx",
   "sternum", "ribs", "scapula", "clavicle", "humerus", "radius", "ulna",
   "femur", "tibia", "fibula", "patella",
   "nephron", "glomerulus", "tubules", "ureter", "bladder", "urethra",
   "prostate", "ovaries", "fallopian", "uterus", "cervix", "vagina"]

/-- The `pathology` category set: terms of `_load_pathology_terms`
(medical_vocabulary.py lines 247-287), lower-cased. -/
def pathologySet : List String :=
  ["myocardial infarction", "angina pectoris", "arrhythmia", "bradycardia",
   "tachycardia", "hypertension", "hypotension", "atherosclerosis",
   "thrombosis", "embolism", "ischemia", "cardiomyopathy",
   "pneumonia", "bronchitis", "asthma", "copd", "emphysema", "pneumothorax",
   "pulmonary edema", "respiratory failure", "bronchospasm",
   "gastritis", "peptic ulcer", "gastroesophageal reflux", "cholecystitis",
   "hepatitis", "cirrhosis", "pancreatitis", "inflammatory bowel disease",
   "crohn\x27s disease", "ulcerative colitis",
   "stroke", "transient ischemic attack", "seizure", "epilepsy", "migraine",
   "parkinson\x27s disease", "alzheimer\x27s disease", "multiple sclerosis",
   "neuropathy", "encephalitis", "meningitis",
   "sepsis", "bacteremia", "cellulitis", "pneumonia",
   "urinary tract infection", "endocarditis", "osteomyelitis", "abscess",
   "diabetes mellitus", "hypothyroidism", "hyperthyroidism",
   "cushing\x27s syndrome", "addison\x27s disease", "hyperglycemia",
   "hypoglycemia"]

/-- The `measurements` category set: terms of `_load_clinical_measurements`
(medical_vocabulary.py lines 289-317), lower-cased. -/
def measurementsSet : List String :=
  ["blood pressure", "heart rate", "respiratory rate", "temperature",
   "oxygen saturation", "pulse oximetry", "spo2",
   "hemoglobin", "hematocrit", "white blood cell count", "platelet count",
   "glucose", "creatinine", "bun", "electrolytes", "sodium", "potassium",
   "chloride", "co2", "troponin", "cpk", "ldh", "alt", "ast",
   "bilirubin", "alkaline phosphatase", "albumin", "protein",
   "mmhg", "bpm", "mg/dl", "g/dl", "meq/l", "mmol/l", "u/l", "ng/ml",
   "pg/ml", "iu/l", "celsius", "fahrenheit", "kilograms", "pounds",
   "centimeters", "inches", "milliliters", "liters"]

/-- The `abbreviations` category set: abbreviation terms of
`_load_medical_abbreviations` (medical_vocabulary.py lines 319-389)
lower-cased, each followed by its lower-cased full-form synonym. -/
def abbreviationsSet : List String :=
  ["bp", "blood pressure", "hr", "heart rate", "rr", "respiratory rate",
   "t", "temperature", "o2 sat", "oxygen saturation",
   "bmi", "body mass index",
   "cbc", "complete blood count", "cmp", "comprehensive metabolic panel",
   "bmp", "basic metabolic panel", "lft", "liver function tests",
   "abg", "arterial blood gas", "ua", "urinalysis",
   "esr", "erythrocyte sedimentation rate", "crp", "c-reactive protein",
   "pt", "prothrombin time", "ptt", "partial thromboplastin time",
   "inr", "international normalized ratio",
   "cxr", "chest x-ray", "ct", "computed tomography",
   "mri", "magnetic resonance imaging", "us", "ultrasound",
   "echo", "echocardiogram", "ekg", "electrocardiogram",
   "ecg", "electrocardiogram", "eeg", "electroencephalogram",
   "htn", "hypertension", "dm", "diabetes mellitus",
   "cad", "coronary artery disease", "chf", "congestive heart failure",
   "copd", "chronic obstructive pulmonary disease",
   "uti", "urinary tract infection", "dvt", "deep vein thrombosis",
   "pe", "pulmonary embolism", "mi", "myocardial infarction",
   "tia", "transient ischemic attack", "cva", "cerebrovascular accident",
   "po", "by mouth", "iv", "intravenous", "im", "intramuscular",
   "sq", "subcutaneous", "bid", "twice daily", "tid", "three times daily",
   "qid", "four times daily", "prn", "as needed", "qhs", "at bedtime",
   "npo", "nothing by mouth"]

/-- The `symptoms` category set: terms of `_load_symptom_terms`
(medical_vocabulary.py lines 391-429). -/
def symptomsSet : List String :=
  ["sharp", "dull", "throbbing", "stabbing", "burning", "aching",
   "cramping", "shooting", "radiating", "constant", "intermittent",
   "fatigue", "weakness", "malaise", "fever", "chills", "sweats",
   "nausea", "vomiting", "diarrhea", "constipation", "headache",
   "dizziness", "vertigo", "syncope", "palpitations",
   "dyspnea", "shortness of breath", "wheezing", "cough", "sputum",
   "hemoptysis", "chest pain", "pleuritic",
   "abdominal pain", "bloating", "heartburn", "regurgitation",
   "dysphagia", "odynophagia", "melena", "hematochezia",
   "confusion", "memory loss", "seizure", "tremor", "numbness",
   "tingling", "weakness", "paralysis", "aphasia", "dysarthria",
   "anxiety", "depression", "insomnia", "hallucinations",
   "delusions", "agitation", "mood changes"]

/-- The `specialties` category set: terms of `_load_medical_specialties`
(medical_vocabulary.py lines 431-452). -/
def specialtiesSet : List String :=
  ["cardiology", "neurology", "pulmonology", "gastroenterology",
   "endocrinology", "nephrology", "rheumatology", "hematology",
   "oncology", "dermatology", "psychiatry", "pediatrics",
   "geriatrics", "emergency medicine", "internal medicine",
   "family medicine", "surgery", "anesthesiology", "radiology",
   "pathology", "ophthalmology", "otolaryngology", "urology",
   "gynecology", "obstetrics", "orthopedics", "plastic surgery"]

/-- The category → term-set mapping built by `_build_medical_category_sets`
(evaluation_metrics.py lines 112-123) over
`MedicalVocabularyEnhancer.medical_entities`.  The `dataset_derived` category
is produced by `_extract_terms_from_medical_datasets`, which yields no terms
when the external `MTS-Dialog` dataset directory is absent; it is therefore
embedded as the empty set (its key still exists). -/
def medicalCategories : List (String × List String) :=
  [("drugs", drugsSet), ("procedures", proceduresSet),
   ("anatomy", anatomySet), ("pathology", pathologySet),
   ("measurements", measurementsSet), ("abbreviations", abbreviationsSet),
   ("symptoms", symptomsSet), ("specialties", specialtiesSet),
   ("dataset_derived", [])]

/-- The closed set of function words of `_get_token_weight`
(evaluation_metrics.py line 326). -/
def functionWords : List String :=
  ["the", "a", "an", "and", "or", "but", "in", "on", "at", "to", "for",
   "of", "with", "by"]

/-- The evaluator's weight table (keys of `self.weights`,
evaluation_metrics.py lines 88-95). -/
structure Weights where
  medical_term : ℚ
  dosage : ℚ
  anatomy : ℚ
  procedure : ℚ
  standard_word : ℚ
  function_word : ℚ

/-- Default weights of `MedicalTranscriptionEvaluator.__init__`:
medical_term 3.0, dosage 5.0, anatomy 2.5, procedure 3.5, standard_word 1.0,
function_word 0.5. -/
def defaultWeights : Weights :=
  { medical_term := 3, dosage := 5, anatomy := 5/2, procedure := 7/2,
    standard_word := 1, function_word := 1/2 }

/-- An optional override for each recognized weight key, as accepted by the
`weights_config` argument of `__init__`. -/
structure WeightsConfig where
  medical_term : Option ℚ
  dosage : Option ℚ
  anatomy : Option ℚ
  procedure : Option ℚ
  standard_word : Option ℚ
  function_word : Option ℚ

/-- Construction-time weight handling of `__init__` (evaluation_metrics.py
lines 88-98): the defaults are set and then `self.weights.update(
weights_config)` replaces every supplied key.  No validation of any kind is
performed on the supplied values. -/
def mkWeights (cfg : WeightsConfig) : Weights where
  medical_term := cfg.medical_term.getD 3
  dosage := cfg.dosage.getD 5
  anatomy := cfg.anatomy.getD (5/2)
  procedure := cfg.procedure.getD (7/2)
  standard_word := cfg.standard_word.getD 1
  function_word := cfg.function_word.getD (1/2)

/-- Python's `str.lower()` modelled character by character (ASCII case
folding, which is all the catalog terms and tokens here need). -/
def lowerStr (s : String) : String :=
  String.mk (s.toList.map Char.toLower)

/-- The anchored structural dosage pattern
`^\d+(\.\d+)?(mg|ml|mcg|g|kg|units?)$` tested by `re.match` in
`_get_token_weight` (evaluation_metrics.py line 322): one or more digits, an
optional fractional part, then a unit, consuming the whole token.  Greedy
matching commits safely here: shortening the digit run or dropping the
fractional part can never enable a unit match, since no unit starts with a
digit or a dot.  Digits are ASCII, matching the tokens this code receives. -/
def matchesDosagePattern (s : String) : Bool :=
  let cs := s.toList
  let ds := cs.takeWhile (fun c => c.isDigit)
  let r1 := cs.dropWhile (fun c => c.isDigit)
  if ds.isEmpty then false
  else
    let r2 := match r1 with
      | '.' :: t =>
        if (t.takeWhile (fun c => c.isDigit)).isEmpty then r1
        else t.dropWhile (fun c => c.isDigit)
      | _ => r1
    ["mg", "ml", "mcg", "g", "kg", "unit", "units"].contains (String.mk r2)

/-- Embedding of `_get_token_weight` (evaluation_metrics.py lines 300-331),
with its branch order: empty token, critical terms, drugs, procedures,
anatomy, structural dosage pattern, function words, default. -/
def getTokenWeight (w : Weights) (token : String) : ℚ :=
  if token = "" then 0
  else
    let tl := lowerStr token
    if tl ∈ criticalTerms then w.dosage
    else if tl ∈ drugsSet then w.medical_term
    else if tl ∈ proceduresSet then w.procedure
    else if tl ∈ anatomySet then w.anatomy
    else if matchesDosagePattern tl then w.dosage
    else if tl ∈ functionWords then w.function_word
    else w.standard_word

/-- Modelled from the spec (§4.2): the claim's first-match-wins lookup
order — critical terms, structural dosage pattern, drugs, procedures,
anatomy, function words, default — with no special handling of the empty
token. -/
def claimWeightLookup (w : Weights) (token : String) : ℚ :=
  let tl := lowerStr token
  if tl ∈ criticalTerms then w.dosage
  else if matchesDosagePattern tl then w.dosage
  else if tl ∈ drugsSet then w.medical_term
  else if tl ∈ proceduresSet then w.procedure
  else if tl ∈ anatomySet then w.anatomy
  else if tl ∈ functionWords then w.function_word
  else w.standard_word

/-- Embedding of `_calculate_wer` (evaluation_metrics.py lines 265-276):
empty reference returns 1.0 for a non-empty hypothesis and 0.0 otherwise;
otherwise the edit distance divided by the reference length, capped at 1.0.
Totality of this rational-valued function is the embedding of "no
division-by-zero failure and no NaN". -/
def calcWer (reference hypothesis : List String) : ℚ :=
  if reference = [] then (if hypothesis = [] then 0 else 1)
  else min ((editDistance reference hypothesis : ℚ) / (reference.length : ℚ)) 1

/-- Embedding of `_calculate_medical_wer` (evaluation_metrics.py lines
278-298): after the empty-reference early return, one pass over the
alignment accumulates `(total_weight, error_weight)`, each aligned pair
weighted by `_get_token_weight(ref_token)`; the result is their quotient
when the total is positive and 0.0 otherwise. -/
def medicalWer (w : Weights) (reference hypothesis : List String) : ℚ :=
  if reference = [] then (if hypothesis = [] then 0 else 1)
  else
    let alignment := alignSequences reference hypothesis
    let acc := alignment.foldl
      (fun (acc : ℚ × ℚ) p =>
        let weight := getTokenWeight w p.1
        (acc.1 + weight, if p.1 ≠ p.2 then acc.2 + weight else acc.2))
      (0, 0)
    if 0 < acc.1 then acc.2 / acc.1 else 0

/-- The reference-side-weighted error ratio of an alignment, written as two
sums: total weight of every pair's reference token, and the same weight
summed over non-matching pairs only; their quotient, 0.0 when the total
weight is not positive. -/
def refWeightRate (w : Weights) (al : List (String × String)) : ℚ :=
  let total := (al.map (fun p => getTokenWeight w p.1)).sum
  let err := (al.map (fun p => if p.1 ≠ p.2 then getTokenWeight w p.1 else 0)).sum
  if 0 < total then err / total else 0

/-- Modelled from the spec (§3, §4.4): the weight the claim says each
aligned pair is counted with — the reference-side token's weight, or the
hypothesis-side token's weight when the reference side is empty. -/
def claimSelectedWeight (w : Weights) (p : String × String) : ℚ :=
  if p.1 = "" then getTokenWeight w p.2 else getTokenWeight w p.1

/-- Modelled from the spec (§4.4): the claimed weighted error rate over an
alignment — selected weight summed over non-match ops divided by selected
weight summed over all ops, 0.0 when the total weight is 0. -/
def claimWeightedRate (w : Weights) (al : List (String × String)) : ℚ :=
  let total := (al.map (claimSelectedWeight w)).sum
  let err := (al.map (fun p => if p.1 ≠ p.2 then claimSelectedWeight w p else 0)).sum
  if 0 < total then err / total else 0

/-- Accumulating word splitter: splits a character list at spaces, dropping
empty fragments; `acc` holds the current word's characters in reverse. -/
def splitWordsAux : List Char → List Char → List String
  | acc, [] => if acc.isEmpty then [] else [String.mk acc.reverse]
  | acc, c :: cs =>
    if c = ' ' then
      if acc.isEmpty then splitWordsAux [] cs
      else String.mk acc.reverse :: splitWordsAux [] cs
    else splitWordsAux (c :: acc) cs

/-- Modelled from the spec (§1, §4.1): tokenization itself is delegated to
an external tokenizer (`nltk.word_tokenize`), out of scope for the core;
the spec describes it as a whitespace/punctuation word split.  Lower-cased
whitespace splitting, which agrees with the external tokenizer on the
punctuation-free inputs used here. -/
def wordTokenize (s : String) : List String :=
  splitWordsAux [] (lowerStr s).toList

/-- Unit-spelling canonicalization table of `_normalize_medical_token`
(evaluation_metrics.py lines 242-251). -/
def unitMappings : List (String × String) :=
  [("milligrams", "mg"), ("milligram", "mg"),
   ("milliliters", "ml"), ("milliliter", "ml"),
   ("micrograms", "mcg"), ("microgram", "mcg"),
   ("kilograms", "kg"), ("kilogram", "kg")]

/-- Colloquial-to-clinical phrase table of `_normalize_medical_token`
(evaluation_metrics.py lines 257-261). -/
def medicalMappings : List (String × String) :=
  [("heart attack", "myocardial infarction"),
   ("high blood pressure", "hypertension"),
   ("sugar diabetes", "diabetes mellitus")]

/-- Embedding of `_normalize_medical_token` (evaluation_metrics.py lines
239-263): unit table first, then `medical_mappings.get(token, token)`. -/
def normalizeMedicalToken (token : String) : String :=
  match List.lookup token unitMappings with
  | some u => u
  | none => (List.lookup token medicalMappings).getD token

/-- Embedding of `_tokenize_and_normalize` (evaluation_metrics.py lines
225-237): lower-case, tokenize, normalize each token. -/
def tokenizeAndNormalize (s : String) : List String :=
  (wordTokenize s).map normalizeMedicalToken

/-- The standard WER computed by `evaluate_single` on raw strings. -/
def evaluateSingleStandardWer (reference hypothesis : String) : ℚ :=
  calcWer (tokenizeAndNormalize reference) (tokenizeAndNormalize hypothesis)

/-- The weighted (medical) WER computed by `evaluate_single` on raw strings,
with the default weight configuration. -/
def evaluateSingleMedicalWer (reference hypothesis : String) : ℚ :=
  medicalWer defaultWeights (tokenizeAndNormalize reference)
    (tokenizeAndNormalize hypothesis)

/-- A character of Python's `\w` class (ASCII range): letter, digit or
underscore; used for `\b` word-boundary tests. -/
def isWordChar (c : Char) : Bool :=
  c.isAlphanum || c = '_'

/-- There is a word boundary between the end of a word and `rest` when
`rest` starts with a non-word character or is the string's end. -/
def boundaryAfter : List Char → Bool
  | [] => true
  | c :: _ => !(isWordChar c)

/-- Try one unit alternative of the dosage-extraction regex at `cs`:
case-insensitive comparison (re.IGNORECASE), and the regex's trailing `\b`
must hold after it.  Returns the original-case matched slice and the rest. -/
def tryUnitAlt (alt : List Char) (cs : List Char) : Option (List Char × List Char) :=
  if (cs.take alt.length).map Char.toLower = alt ∧
      boundaryAfter (cs.drop alt.length) = true then
    some (cs.take alt.length, cs.drop alt.length)
  else none

/-- The unit alternatives of `(mg|ml|mcg|g|kg|units?|tablets?|capsules?)` in
regex alternation order, each optional `s?` expanded greedily (plural form
first). -/
def dosageUnitAlts : List (List Char) :=
  [['m', 'g'], ['m', 'l'], ['m', 'c', 'g'], ['g'], ['k', 'g'],
   ['u', 'n', 'i', 't', 's'], ['u', 'n', 'i', 't'],
   ['t', 'a', 'b', 'l', 'e', 't', 's'], ['t', 'a', 'b', 'l', 'e', 't'],
   ['c', 'a', 'p', 's', 'u', 'l', 'e', 's'],
   ['c', 'a', 'p', 's', 'u', 'l', 'e']]

/-- First unit alternative (in alternation order) matching at `cs` with a
trailing word boundary. -/
def matchUnit (cs : List Char) : Option (List Char × List Char) :=
  dosageUnitAlts.findSome? (fun alt => tryUnitAlt alt cs)

/-- Attempt the dosage regex `\d+(\.\d+)?\s*(unit)` at the start of `cs`
(the leading `\b` having been checked by the caller): the greedy digit run,
the optional fractional capture group, greedily consumed whitespace, then
the unit capture group.  Greedy commitment is safe: no unit alternative
starts with a digit, a dot or whitespace, so backtracking the earlier
quantifiers can never enable a unit match.  Returns the two capture groups
— exactly what `re.findall` collects, the leading digits being outside any
group — and the unconsumed rest. -/
def matchDosageAt (cs : List Char) : Option (String × String × List Char) :=
  let ds := cs.takeWhile (fun c => c.isDigit)
  let r1 := cs.dropWhile (fun c => c.isDigit)
  if ds.isEmpty then none
  else
    let frac : List Char × List Char := match r1 with
      | '.' :: t =>
        let fs := t.takeWhile (fun c => c.isDigit)
        if fs.isEmpty then ([], r1)
        else ('.' :: fs, t.dropWhile (fun c => c.isDigit))
      | _ => ([], r1)
    let r3 := frac.2.dropWhile (fun c => c.isWhitespace)
    match matchUnit r3 with
    | some (u, rest) => some (String.mk frac.1, String.mk u, rest)
    | none => none

/-- The leading `\b` of the dosage pattern holds before a digit when the
previous character is absent (string start) or not a word character. -/
def boundaryBefore : Option Char → Bool
  | none => true
  | some p => !(isWordChar p)

/-- Left-to-right non-overlapping scan of `re.findall` for the dosage
pattern: at every position that starts with a digit preceded by a word
boundary, attempt a match; on success continue after it, otherwise advance
one character.  `prev` is the previous character (for the leading `\b`);
`fuel` bounds the recursion and never runs out when it starts at the
character count, since every step consumes at least one character. -/
def scanDosages : Nat → Option Char → List Char → List (String × String)
  | 0, _, _ => []
  | _ + 1, _, [] => []
  | fuel + 1, prev, c :: cs =>
    if c.isDigit && boundaryBefore prev then
      match matchDosageAt (c :: cs) with
      | some (g1, g2, rest) =>
        (g1, g2) :: scanDosages fuel (some (g2.toList.getLastD 'x')) rest
      | none => scanDosages fuel (some c) cs
    else scanDosages fuel (some c) cs

/-- All `(fractional-part, unit)` capture-group pairs found by
`re.findall(dosage_pattern, s, re.IGNORECASE)`. -/
def findallDosages (s : String) : List (String × String) :=
  scanDosages s.length none s.toList

/-- Embedding of `_calculate_dosage_accuracy` (evaluation_metrics.py lines
583-603): `re.findall` over the space-joined tokens yields the set of
capture-group tuples (note: the leading digits are captured by no group);
both sets empty → 1.0, exactly one empty → 0.0, otherwise the tuples are
joined into strings and the Jaccard ratio of the two string sets is
returned (with the vacuous empty-union guard of the source). -/
def dosageAccuracy (reference hypothesis : List String) : ℚ :=
  let refDosages := (findallDosages (String.intercalate " " reference)).toFinset
  let hypDosages := (findallDosages (String.intercalate " " hypothesis)).toFinset
  if refDosages = ∅ ∧ hypDosages = ∅ then 1
  else if refDosages = ∅ ∨ hypDosages = ∅ then 0
  else
    let refStrs := refDosages.image (fun p => p.1 ++ p.2)
    let hypStrs := hypDosages.image (fun p => p.1 ++ p.2)
    if refStrs ∪ hypStrs = ∅ then 0
    else ((refStrs ∩ hypStrs).card : ℚ) / ((refStrs ∪ hypStrs).card : ℚ)

/-- Embedding of `_calculate_category_accuracy` (evaluation_metrics.py lines
605-624): unknown category names return 0.0; otherwise the lower-cased
tokens of each side lying in the category's term set are collected as sets,
with the documented degenerate cases and the Jaccard ratio. -/
def categoryAccuracy (reference hypothesis : List String) (category : String) : ℚ :=
  match List.lookup category medicalCategories with
  | none => 0
  | some categoryTerms =>
    let refTerms := ((reference.filter (fun t => lowerStr t ∈ categoryTerms)).map
      lowerStr).toFinset
    let hypTerms := ((hypothesis.filter (fun t => lowerStr t ∈ categoryTerms)).map
      lowerStr).toFinset
    if refTerms = ∅ ∧ hypTerms = ∅ then 1
    else if refTerms = ∅ ∨ hypTerms = ∅ then 0
    else if refTerms ∪ hypTerms = ∅ then 0
    else ((refTerms ∩ hypTerms).card : ℚ) / ((refTerms ∪ hypTerms).card : ℚ)

/-- Failure modes of a batch evaluation: the up-front length check of
`evaluate_batch` (evaluation_metrics.py lines 202-203), or an exception
escaping one pair's `evaluate_single` call. -/
inductive BatchError (E : Type) where
  | lengthMismatch : BatchError E
  | evalFailure : E → BatchError E

/-- The pair loop of `evaluate_batch` (evaluation_metrics.py lines 208-214):
each pair is evaluated in order with no surrounding `try`, so a failure
(modelled by `Except.error`) propagates immediately and no later pair is
evaluated. -/
def evalPairs {ρ E M : Type} (f : ρ → ρ → Except E M) :
    List (ρ × ρ) → Except (BatchError E) (List M)
  | [] => Except.ok []
  | (r, h) :: rest =>
    match f r h with
    | Except.error e => Except.error (BatchError.evalFailure e)
    | Except.ok m =>
      match evalPairs f rest with
      | Except.error e => Except.error e
      | Except.ok ms => Except.ok (m :: ms)

/-- Embedding of `evaluate_batch` (evaluation_metrics.py lines 200-223),
abstracted over the per-pair evaluation `f` (which models
`evaluate_single` together with the per-pair error collection, and may
raise): the length check raises `ValueError` first, then the pairs are
folded with no per-pair exception handling. -/
def evaluateBatch {ρ E M : Type} (f : ρ → ρ → Except E M)
    (references hypotheses : List ρ) : Except (BatchError E) (List M) :=
  if references.length = hypotheses.length then
    evalPairs f (references.zip hypotheses)
  else Except.error BatchError.lengthMismatch

/-- A concrete fallible per-pair evaluation used to exercise
`evaluateBatch`: fails exactly when the first component is 0. -/
def failingEval : Nat → Nat → Except Unit Nat :=
  fun a b => if a = 0 then Except.error () else Except.ok (a + b)

/-- The accumulator pass of `_calculate_medical_wer` computes the two sums
of `refWeightRate`: final total weight and error weight are the initial
values plus the per-pair sums. -/
theorem wer_foldl (w : Weights) :
    ∀ (al : List (String × String)) (a b : ℚ),
      al.foldl
        (fun (acc : ℚ × ℚ) p =>
          let weight := getTokenWeight w p.1
          (acc.1 + weight, if p.1 ≠ p.2 then acc.2 + weight else acc.2))
        (a, b) =
      (a + (al.map (fun p => getTokenWeight w p.1)).sum,
       b + (al.map (fun p => if p.1 ≠ p.2 then getTokenWeight w p.1 else 0)).sum) := by
  intro al
  induction al with
  | nil => intro a b; simp
  | cons p al ih =>
    intro a b
    simp only [List.foldl_cons, List.map_cons, List.sum_cons]
    by_cases hp : p.1 ≠ p.2
    · rw [if_pos hp, if_pos hp, ih, Prod.mk.injEq]
      constructor <;> ring
    · rw [if_neg hp, if_neg hp, ih, Prod.mk.injEq]
      constructor <;> ring

/-- Every branch of the weight lookup returns one of the configured weights
or 0, so non-negative configurations yield non-negative token weights. -/
theorem getTokenWeight_nonneg (w : Weights)
    (h1 : 0 ≤ w.medical_term) (h2 : 0 ≤ w.dosage) (h3 : 0 ≤ w.anatomy)
    (h4 : 0 ≤ w.procedure) (h5 : 0 ≤ w.standard_word)
    (h6 : 0 ≤ w.function_word) (t : String) : 0 ≤ getTokenWeight w t := by
  unfold getTokenWeight
  dsimp only
  split_ifs <;> first | exact le_refl 0 | assumption

theorem drugsSet_no_dosage_pattern :
    ∀ t ∈ drugsSet, matchesDosagePattern t = false := by decide

theorem proceduresSet_no_dosage_pattern :
    ∀ t ∈ proceduresSet, matchesDosagePattern t = false := by decide

theorem anatomySet_no_dosage_pattern :
    ∀ t ∈ anatomySet, matchesDosagePattern t = false := by decide

/-- Weight of a structural dosage token such as `5mg`: not a critical term
and in no catalog set, it falls through to the dosage-pattern branch. -/
theorem getTokenWeight_5mg (w : Weights) :
    getTokenWeight w "5mg" = w.dosage := by
  simp only [getTokenWeight]
  rw [if_neg (by decide), if_neg (by decide), if_neg (by decide),
    if_neg (by decide), if_neg (by decide), if_pos (by decide)]

/-- Weight of a plain word: every branch before the default misses. -/
theorem getTokenWeight_pain (w : Weights) :
    getTokenWeight w "pain" = w.standard_word := by
  simp only [getTokenWeight]
  rw [if_neg (by decide), if_neg (by decide), if_neg (by decide),
    if_neg (by decide), if_neg (by decide), if_neg (by decide),
    if_neg (by decide)]

/-- When both sides extract the same set of capture-group tuples, the
dosage accuracy is 1.0 (either both sets are empty, or the Jaccard ratio is
of a set with itself). -/
theorem dosageAccuracy_self_sets (reference hypothesis : List String)
    (h : (findallDosages (String.intercalate " " reference)).toFinset =
        (findallDosages (String.intercalate " " hypothesis)).toFinset) :
    dosageAccuracy reference hypothesis = 1 := by
  unfold dosageAccuracy
  rw [h]
  by_cases he : (findallDosages (String.intercalate " " hypothesis)).toFinset = ∅
  · rw [if_pos ⟨he, he⟩]
  · rw [if_neg (fun hand => he hand.1),
      if_neg (fun hor => Or.elim hor he he)]
    dsimp only
    rw [Finset.union_self, Finset.inter_self,
      if_neg (fun himg => he (Finset.image_eq_empty.mp himg))]
    have hpos : 0 < ((findallDosages
        (String.intercalate " " hypothesis)).toFinset.image
          (fun p => p.1 ++ p.2)).card := by
      rw [Finset.card_pos, Finset.image_nonempty]
      exact Finset.nonempty_of_ne_empty he
    rw [div_self]
    exact ne_of_gt (by exact_mod_cast hpos)

/-- Claim C1 (code bug): the spec requires dosage accuracy strictly below
1.0 for a reference containing "500mg" against a hypothesis containing
"250mg" — the repository's own test `test_dosage_accuracy` asserts the same
— but `_calculate_dosage_accuracy` compares the `re.findall` capture-group
tuples, which omit the leading digits (they are outside every group), so
both sides extract `('', 'mg')` and the function returns exactly 1.0. -/
theorem dosage_accuracy_ignores_the_number :
    dosageAccuracy ["500mg", "amoxicillin"] ["250mg", "amoxicillin"] = 1 ∧
    ¬ dosageAccuracy ["500mg", "amoxicillin"] ["250mg", "amoxicillin"] < 1 ∧
    dosageAccuracy ["500mg", "amoxicillin"] ["500mg", "amoxicillin"] = 1 := by
  have h1 : dosageAccuracy ["500mg", "amoxicillin"] ["250mg", "amoxicillin"] = 1 :=
    dosageAccuracy_self_sets _ _ (by decide)
  exact ⟨h1, by rw [h1]; exact lt_irrefl 1, dosageAccuracy_self_sets _ _ rfl⟩

/-- Claim C2 (counterexample): the weighted error rate does not fall back to
the hypothesis-side token's weight for insertions.  Aligning `["pain"]`
against `["pain", "5mg"]` yields a match plus an insertion of the dosage
token "5mg"; the code weights the insertion by the empty reference side
(weight 0) and returns 0, while the claimed formula selects the hypothesis
token's dosage weight 5 and yields 5/6. -/
theorem medicalWer_insertion_counterexample :
    medicalWer defaultWeights ["pain"] ["pain", "5mg"] = 0 ∧
    claimWeightedRate defaultWeights
      (alignSequences ["pain"] ["pain", "5mg"]) = 5/6 ∧
    medicalWer defaultWeights ["pain"] ["pain", "5mg"] ≠
      claimWeightedRate defaultWeights
        (alignSequences ["pain"] ["pain", "5mg"]) := by
  have hal : alignSequences ["pain"] ["pain", "5mg"] =
      [("pain", "pain"), ("", "5mg")] := by decide
  have h0 : getTokenWeight defaultWeights "" = 0 := rfl
  have hcw : claimWeightedRate defaultWeights
      (alignSequences ["pain"] ["pain", "5mg"]) = 5/6 := by
    rw [hal]
    unfold claimWeightedRate claimSelectedWeight
    simp only [List.map_cons, List.map_nil, List.sum_cons, List.sum_nil]
    norm_num [getTokenWeight_pain, getTokenWeight_5mg, h0, defaultWeights]
    rw [if_neg (by decide : ¬ ("" : String) = "5mg")]
  have hmw : medicalWer defaultWeights ["pain"] ["pain", "5mg"] = 0 := by
    simp only [medicalWer, if_neg (by decide : ¬ (["pain"] : List String) = [])]
    rw [hal, wer_foldl defaultWeights _ 0 0]
    simp only [zero_add, List.map_cons, List.map_nil, List.sum_cons,
      List.sum_nil]
    rw [if_neg (by decide : ¬ ("pain" : String) ≠ "pain"),
      if_pos (by decide : ("" : String) ≠ "5mg")]
    rw [getTokenWeight_pain, h0]
    norm_num [defaultWeights]
  exact ⟨hmw, hcw, by rw [hmw, hcw]; norm_num⟩

/-- Claim C2 (amended, proved): the weighted error rate always selects the
reference-side token's weight — 0.0 for the empty reference side of an
insertion, so insertions contribute to neither sum — with the source's
early return for an empty reference. -/
theorem medicalWer_reference_side_formula (w : Weights) (ref hyp : List String) :
    medicalWer w ref hyp =
      if ref = [] then (if hyp = [] then (0 : ℚ) else 1)
      else refWeightRate w (alignSequences ref hyp) := by
  by_cases h : ref = []
  · simp only [medicalWer, if_pos h]
  · simp only [medicalWer, refWeightRate, if_neg h]
    rw [wer_foldl w (alignSequences ref hyp) 0 0]
    simp only [zero_add]

/-- Claim C3 (confirmed): the standard error rate is the Levenshtein
distance over the reference length capped at 1.0, with the empty-reference
conventions, always within [0, 1] (the total rational-valued embedding has
no NaN and no division failure), and the concrete `evaluate_single`
conventions on `""` versus `""` and `""` versus `"chest pain"` hold. -/
theorem standard_wer_formula_and_conventions :
    (∀ ref hyp : List String,
      calcWer ref hyp =
        (if ref = [] then (if hyp = [] then (0 : ℚ) else 1)
         else min ((lev ref hyp : ℚ) / (ref.length : ℚ)) 1) ∧
      0 ≤ calcWer ref hyp ∧ calcWer ref hyp ≤ 1) ∧
    evaluateSingleStandardWer "" "" = 0 ∧
    evaluateSingleMedicalWer "" "" = 0 ∧
    evaluateSingleStandardWer "" "chest pain" = 1 := by
  refine ⟨fun ref hyp => ⟨?_, ?_, ?_⟩, by decide, by decide, by decide⟩
  · unfold calcWer
    rw [editDistance_eq_lev]
  · unfold calcWer
    split_ifs
    · exact le_refl 0
    · exact zero_le_one
    · exact le_min (div_nonneg (Nat.cast_nonneg _) (Nat.cast_nonneg _))
        zero_le_one
  · unfold calcWer
    split_ifs
    · exact zero_le_one
    · exact le_refl 1
    · exact min_le_right _ _

/-- Claim C4 (confirmed): over sequences of non-empty tokens the alignment
of `_align_sequences` contains exactly `lev ref hyp` non-matching pairs —
it follows a minimum-cost edit path — and the backtracking equals the
preference-ordered chooser that prefers the diagonal over up over left
among minimum-cost predecessors. -/
theorem alignment_nonmatch_count_and_tiebreak (ref hyp : List String)
    (href : ∀ t ∈ ref, t ≠ "") (hhyp : ∀ t ∈ hyp, t ≠ "") :
    (alignSequences ref hyp).countP (fun p => decide (p.1 ≠ p.2)) =
      lev ref hyp ∧
    alignSequences ref hyp = alignPref ref hyp := by
  constructor
  · rw [alignSequences, List.countP_reverse,
      backtrack_countP_ne (ref.length + hyp.length) ref hyp _ _
        le_rfl le_rfl le_rfl href hhyp]
    exact editDistance_eq_lev ref hyp
  · exact alignSequences_eq_alignPref ref hyp

/-- Witness for C4 at a concrete pair with non-empty tokens. -/
theorem alignment_nonmatch_count_and_tiebreak_witness :
    (alignSequences ["chest", "pain"] ["chest"]).countP
        (fun p => decide (p.1 ≠ p.2)) = lev ["chest", "pain"] ["chest"] ∧
    alignSequences ["chest", "pain"] ["chest"] =
      alignPref ["chest", "pain"] ["chest"] :=
  alignment_nonmatch_count_and_tiebreak ["chest", "pain"] ["chest"]
    (by decide) (by decide)

/-- Claim C5 (counterexample): the claimed seven-step first-match-wins
enumeration assigns the empty token the standard-word weight via its final
default, but `_get_token_weight` handles the empty token first and returns
0.0. -/
theorem empty_token_weight_mismatch :
    getTokenWeight defaultWeights "" = 0 ∧
    claimWeightLookup defaultWeights "" = 1 ∧
    getTokenWeight defaultWeights "" ≠ claimWeightLookup defaultWeights "" :=
  ⟨rfl, rfl, by decide⟩

/-- Claim C5 (amended, proved): for every non-empty token the code's weight
lookup agrees with the claimed first-match-wins order (critical terms,
structural dosage pattern, drugs, procedures, anatomy, function words,
default) — the two orders coincide because no catalog term matches the
digit-leading dosage pattern; the empty token alone is special-cased to
weight 0.0. -/
theorem token_weight_first_match_order (w : Weights) (token : String)
    (h : token ≠ "") :
    getTokenWeight w token = claimWeightLookup w token := by
  unfold getTokenWeight claimWeightLookup
  rw [if_neg h]
  dsimp only
  by_cases h1 : lowerStr token ∈ criticalTerms
  · rw [if_pos h1, if_pos h1]
  · rw [if_neg h1, if_neg h1]
    by_cases h2 : matchesDosagePattern (lowerStr token) = true
    · have hd : lowerStr token ∉ drugsSet := fun hm =>
        by simpa [h2] using drugsSet_no_dosage_pattern _ hm
      have hp : lowerStr token ∉ proceduresSet := fun hm =>
        by simpa [h2] using proceduresSet_no_dosage_pattern _ hm
      have ha : lowerStr token ∉ anatomySet := fun hm =>
        by simpa [h2] using anatomySet_no_dosage_pattern _ hm
      rw [if_pos h2, if_neg hd, if_neg hp, if_neg ha, if_pos h2]
    · conv_lhs => rw [if_neg h2]
      conv_rhs => rw [if_neg h2]

/-- Witness for C5 at the dosage-pattern token "5mg". -/
theorem token_weight_first_match_order_witness :
    ("5mg" : String) ≠ "" ∧
    getTokenWeight defaultWeights "5mg" = claimWeightLookup defaultWeights "5mg" :=
  ⟨by decide, token_weight_first_match_order defaultWeights "5mg" (by decide)⟩

/-- Claim C6 (counterexample): a negative dosage weight in the override
table is not rejected at construction — `__init__` performs no validation —
and the negative weight is stored and later used by the token classifier
during metric computation. -/
theorem negative_weight_accepted_at_construction :
    (mkWeights ⟨none, some (-1), none, none, none, none⟩).dosage = -1 ∧
    (mkWeights ⟨none, some (-1), none, none, none, none⟩).dosage < 0 ∧
    getTokenWeight (mkWeights ⟨none, some (-1), none, none, none, none⟩)
      "5mg" = -1 := by
  refine ⟨rfl, by norm_num [mkWeights], ?_⟩
  rw [getTokenWeight_5mg]
  norm_num [mkWeights]

/-- Claim C6 (amended, proved): construction never fails; any supplied
dosage weight, negative ones included, is merged verbatim into the weight
table and is the weight later computed for a dosage token. -/
theorem construction_skips_weight_validation (q : ℚ) (_hq : q < 0) :
    (mkWeights ⟨none, some q, none, none, none, none⟩).dosage = q ∧
    getTokenWeight (mkWeights ⟨none, some q, none, none, none, none⟩)
      "5mg" = q := by
  refine ⟨rfl, ?_⟩
  rw [getTokenWeight_5mg]
  norm_num [mkWeights]

/-- Witness for C6 at the concrete negative weight -2. -/
theorem construction_skips_weight_validation_witness :
    ((-2 : ℚ) < 0) ∧
    (mkWeights ⟨none, some (-2), none, none, none, none⟩).dosage = -2 ∧
    getTokenWeight (mkWeights ⟨none, some (-2), none, none, none, none⟩)
      "5mg" = -2 :=
  ⟨by norm_num, (construction_skips_weight_validation (-2) (by norm_num)).1,
    (construction_skips_weight_validation (-2) (by norm_num)).2⟩

/-- Claim C7 (counterexample): `evaluate_batch` does not isolate per-pair
failures.  With a per-pair evaluation that fails on the first pair and
would succeed on the second, the whole batch call returns the propagated
failure instead of a per-pair "failed" marker plus the second result. -/
theorem batch_aborts_on_single_failure :
    evaluateBatch failingEval [0, 1] [2, 3] =
      Except.error (BatchError.evalFailure ()) ∧
    failingEval 1 3 = Except.ok 4 :=
  ⟨rfl, rfl⟩

/-- Claim C7 (amended, proved): after the up-front length check, the first
exception raised by any pair's evaluation propagates and aborts the whole
batch call — whether it is the head pair that fails or any later pair. -/
theorem batch_failure_propagation {ρ E M : Type} (f : ρ → ρ → Except E M)
    (r h : ρ) (refs hyps : List ρ) (e : E)
    (hlen : refs.length = hyps.length) :
    (f r h = Except.error e →
      evaluateBatch f (r :: refs) (h :: hyps) =
        Except.error (BatchError.evalFailure e)) ∧
    (∀ m : M, f r h = Except.ok m →
      evaluateBatch f refs hyps = Except.error (BatchError.evalFailure e) →
      evaluateBatch f (r :: refs) (h :: hyps) =
        Except.error (BatchError.evalFailure e)) := by
  constructor
  · intro hf
    unfold evaluateBatch
    rw [if_pos (by simp [hlen])]
    have hz : (r :: refs).zip (h :: hyps) = (r, h) :: refs.zip hyps := rfl
    rw [hz]
    simp only [evalPairs, hf]
  · intro m hm hrest
    unfold evaluateBatch at hrest ⊢
    rw [if_pos hlen] at hrest
    rw [if_pos (by simp [hlen])]
    have hz : (r :: refs).zip (h :: hyps) = (r, h) :: refs.zip hyps := rfl
    rw [hz]
    simp only [evalPairs, hm]
    rw [hrest]

/-- Witness for C7: a failing head pair aborts a concrete two-pair batch. -/
theorem batch_failure_propagation_witness :
    ([5] : List Nat).length = ([7] : List Nat).length ∧
    failingEval 0 2 = Except.error () ∧
    evaluateBatch failingEval [0, 5] [2, 7] =
      Except.error (BatchError.evalFailure ()) :=
  ⟨rfl, rfl, (batch_failure_propagation failingEval 0 2 [5] [7] () rfl).1 rfl⟩

/-- Claim C8 (counterexample): for a category name that is not a key of the
catalog, `_calculate_category_accuracy` returns 0.0 even when reference and
hypothesis are identical, so self-accuracy is not 1.0 for every category
name. -/
theorem category_accuracy_unknown_name :
    categoryAccuracy ["heart"] ["heart"] "bogus" = 0 ∧
    categoryAccuracy ["heart"] ["heart"] "bogus" ≠ 1 :=
  ⟨rfl, by decide⟩

/-- Claim C8 (amended, proved): for every category name present in the
catalog, the category accuracy of any token sequence against itself is
exactly 1.0 — either both filtered term sets are empty, or the Jaccard
ratio of a set with itself is taken. -/
theorem category_accuracy_reflexive (ref : List String) (cat : String)
    (h : (List.lookup cat medicalCategories).isSome) :
    categoryAccuracy ref ref cat = 1 := by
  obtain ⟨terms, ht⟩ := Option.isSome_iff_exists.mp h
  unfold categoryAccuracy
  rw [ht]
  dsimp only
  by_cases he : ((ref.filter (fun t => lowerStr t ∈ terms)).map lowerStr).toFinset = ∅
  · rw [if_pos ⟨he, he⟩]
  · rw [if_neg (fun hand => he hand.1), if_neg (fun hor => Or.elim hor he he)]
    rw [Finset.union_self, Finset.inter_self, if_neg he, div_self]
    have hpos : 0 <
        ((ref.filter (fun t => lowerStr t ∈ terms)).map lowerStr).toFinset.card := by
      rw [Finset.card_pos]
      exact Finset.nonempty_of_ne_empty he
    exact ne_of_gt (by exact_mod_cast hpos)

/-- Witness for C8 at the catalog category `anatomy`. -/
theorem category_accuracy_reflexive_witness :
    (List.lookup "anatomy" medicalCategories).isSome = true ∧
    categoryAccuracy ["sternum"] ["sternum"] "anatomy" = 1 :=
  ⟨rfl, category_accuracy_reflexive ["sternum"] "anatomy" (by decide)⟩

/-- Claim C9 (confirmed): over sequences of non-empty tokens, every
alignment pair has a populated side, the pairs with a populated reference
side number exactly `|reference|`, those with a populated hypothesis side
number exactly `|hypothesis|`, and the alignment is at least
`max(|reference|, |hypothesis|)` long. -/
theorem alignment_structure_invariants (ref hyp : List String)
    (href : ∀ t ∈ ref, t ≠ "") (hhyp : ∀ t ∈ hyp, t ≠ "") :
    (∀ p ∈ alignSequences ref hyp, p.1 ≠ "" ∨ p.2 ≠ "") ∧
    (alignSequences ref hyp).countP (fun p => decide (p.1 ≠ "")) = ref.length ∧
    (alignSequences ref hyp).countP (fun p => decide (p.2 ≠ "")) = hyp.length ∧
    max ref.length hyp.length ≤ (alignSequences ref hyp).length := by
  have hf := backtrack_countP_fst (ref.length + hyp.length) ref hyp
    ref.length hyp.length le_rfl le_rfl le_rfl href
  have hs := backtrack_countP_snd (ref.length + hyp.length) ref hyp
    ref.length hyp.length le_rfl le_rfl le_rfl hhyp
  refine ⟨?_, ?_, ?_, ?_⟩
  · intro p hp
    simp only [alignSequences, List.mem_reverse] at hp
    exact backtrack_populated (ref.length + hyp.length) ref hyp _ _
      le_rfl le_rfl le_rfl href hhyp p hp
  · rw [alignSequences, List.countP_reverse]
    exact hf
  · rw [alignSequences, List.countP_reverse]
    exact hs
  · rw [alignSequences, List.length_reverse]
    have hlf : ref.length ≤ (backtrack ref hyp ref.length hyp.length).length := by
      conv_lhs => rw [← hf]
      exact List.countP_le_length _
    have hls : hyp.length ≤ (backtrack ref hyp ref.length hyp.length).length := by
      conv_lhs => rw [← hs]
      exact List.countP_le_length _
    exact max_le hlf hls

/-- Witness for C9 at a concrete pair with non-empty tokens. -/
theorem alignment_structure_invariants_witness :
    (∀ p ∈ alignSequences ["bp", "is", "140"] ["bp", "140"],
      p.1 ≠ "" ∨ p.2 ≠ "") ∧
    (alignSequences ["bp", "is", "140"] ["bp", "140"]).countP
      (fun p => decide (p.1 ≠ "")) = (["bp", "is", "140"] : List String).length ∧
    (alignSequences ["bp", "is", "140"] ["bp", "140"]).countP
      (fun p => decide (p.2 ≠ "")) = (["bp", "140"] : List String).length ∧
    max (["bp", "is", "140"] : List String).length
        (["bp", "140"] : List String).length ≤
      (alignSequences ["bp", "is", "140"] ["bp", "140"]).length :=
  alignment_structure_invariants ["bp", "is", "140"] ["bp", "140"]
    (by decide) (by decide)

/-- Claim C10 (confirmed): with all six configured weights non-negative the
weighted error rate lies in [0, 1]: each pair's error contribution is the
same reference-side weight that enters the total, so the error sum never
exceeds the total, and a non-positive total yields 0.0 rather than a
division. -/
theorem weighted_error_rate_bounds (w : Weights) (ref hyp : List String)
    (h1 : 0 ≤ w.medical_term) (h2 : 0 ≤ w.dosage) (h3 : 0 ≤ w.anatomy)
    (h4 : 0 ≤ w.procedure) (h5 : 0 ≤ w.standard_word)
    (h6 : 0 ≤ w.function_word) :
    0 ≤ medicalWer w ref hyp ∧ medicalWer w ref hyp ≤ 1 := by
  by_cases h : ref = []
  · simp only [medicalWer, if_pos h]
    by_cases hh : hyp = [] <;> simp [hh]
  · simp only [medicalWer, if_neg h]
    rw [wer_foldl w (alignSequences ref hyp) 0 0]
    simp only [zero_add]
    set al := alignSequences ref hyp
    have hw : ∀ p ∈ al, 0 ≤ getTokenWeight w p.1 := fun p _ =>
      getTokenWeight_nonneg w h1 h2 h3 h4 h5 h6 p.1
    have htot : 0 ≤ (al.map (fun p => getTokenWeight w p.1)).sum :=
      List.sum_nonneg (by
        intro x hx
        obtain ⟨p, hp, rfl⟩ := List.mem_map.mp hx
        exact hw p hp)
    have herr0 : 0 ≤
        (al.map (fun p => if p.1 ≠ p.2 then getTokenWeight w p.1 else 0)).sum :=
      List.sum_nonneg (by
        intro x hx
        obtain ⟨p, hp, rfl⟩ := List.mem_map.mp hx
        split_ifs
        · exact hw p hp
        · exact le_refl 0)
    have hle :
        (al.map (fun p => if p.1 ≠ p.2 then getTokenWeight w p.1 else 0)).sum ≤
        (al.map (fun p => getTokenWeight w p.1)).sum := by
      apply List.sum_le_sum
      intro p hp
      split_ifs
      · exact le_refl _
      · exact hw p hp
    split_ifs with hpos
    · exact ⟨div_nonneg herr0 (le_of_lt hpos), (div_le_one hpos).mpr hle⟩
    · exact ⟨le_refl 0, zero_le_one⟩

/-- Witness for C10 at the default weights and a concrete pair. -/
theorem weighted_error_rate_bounds_witness :
    0 ≤ medicalWer defaultWeights ["chest", "pain"] ["pain"] ∧
    medicalWer defaultWeights ["chest", "pain"] ["pain"] ≤ 1 :=
  weighted_error_rate_bounds defaultWeights ["chest", "pain"] ["pain"]
    (by norm_num [defaultWeights]) (by norm_num [defaultWeights])
    (by norm_num [defaultWeights]) (by norm_num [defaultWeights])
    (by norm_num [defaultWeights]) (by norm_num [defaultWeights])

end Noted
